import Mathlib

/-!
Verification of the scherrer-ai-agent backend (`src/backend`): a shallow
embedding of the chunk segmenter, extraction orchestrator, reconciliation
engine, projection writer and schema loader, with theorems settling the
frozen specification claims.

Python runtime values are modelled by the inductive type `PVal`; machine
floats are modelled by exact rationals (the program never performs float
arithmetic beyond truncation and rounding of parsed decimals).
-/

namespace Scherrer

/-- Model of a Python value as it flows through the backend: `none` is the
Python `None`, dictionaries are insertion-ordered association lists (lookup
takes the last binding, matching dict construction from pairs). A
`datetime.date` is modelled by the `date` constructor. -/
inductive PVal where
  | none
  | bool (b : Bool)
  | int (n : Int)
  | float (q : Rat)
  | str (s : String)
  | date (y m d : Nat)
  | list (xs : List PVal)
  | dict (kvs : List (String × PVal))

/-- Test used by the embedding for the Python `is None` check. -/
def PVal.isNone : PVal → Bool
  | .none => true
  | _ => false

/-- Python truthiness, as used by `or` chains and `if val:` tests. -/
def pyTruthy : PVal → Bool
  | .none => false
  | .bool b => b
  | .int n => n != 0
  | .float q => q != 0
  | .str s => s != ""
  | .date _ _ _ => true
  | .list xs => !xs.isEmpty
  | .dict kvs => !kvs.isEmpty

/-- Python `a or b`: the left operand when truthy, otherwise the right. -/
def pyOr (a b : PVal) : PVal := if pyTruthy a then a else b

/-- Lookup in a Python dict modelled as an association list in insertion
order: the last binding for a key wins, as in a dict built from pairs. -/
def pyLookup (kvs : List (String × PVal)) (k : String) : Option PVal :=
  ((kvs.filter (fun p => p.1 == k)).getLast?).map Prod.snd

/-- Python `d.get(k)` with its implicit `None` default. -/
def pyGetOrNone (kvs : List (String × PVal)) (k : String) : PVal :=
  (pyLookup kvs k).getD .none

/-- Python `d.get(k, dflt)`. -/
def pyGetD (kvs : List (String × PVal)) (k : String) (dflt : PVal) : PVal :=
  (pyLookup kvs k).getD dflt

/-- Whitespace characters stripped by Python `str.strip()` (ASCII part). -/
def pyWs (c : Char) : Bool :=
  c = ' ' || c = '\t' || c = '\n' || c = '\r' || c.toNat = 11 || c.toNat = 12

/-- Python `str.strip()`. -/
def pyStrip (s : String) : String :=
  String.mk (((s.toList.dropWhile pyWs).reverse.dropWhile pyWs).reverse)

/-- Python `str.lower()` (ASCII model, the only characters this program
lowercases). -/
def pyLower (s : String) : String := String.mk (s.toList.map Char.toLower)

/-- Python `s.replace(c, "")` for a single-character pattern (the only
replacement shape the program uses). -/
def pyRemoveChar (s : String) (c : Char) : String :=
  String.mk (s.toList.filter (fun x => x ≠ c))

/-- Split of a character list at every occurrence of the separator. -/
def splitCharAux (sep : Char) : List Char → List (List Char)
  | [] => [[]]
  | c :: rest =>
    match splitCharAux sep rest with
    | g :: gs => if c = sep then [] :: g :: gs else (c :: g) :: gs
    | [] => [[c]]

/-- Python `s.split(sep)` for a single-character separator. -/
def splitChar (s : String) (sep : Char) : List String :=
  (splitCharAux sep s.toList).map String.mk

/-- Python substring test `pat in hay` (for the strings this program builds;
contiguous occurrence). -/
def strContains (hay pat : String) : Bool :=
  hay.toList.tails.any (fun t => pat.toList.isPrefixOf t)

/-- Numeric value of a list of decimal digit characters. -/
def natOfDigits (cs : List Char) : Nat :=
  cs.foldl (fun a c => a * 10 + (c.toNat - 48)) 0

/-- Python `int(s)` on a string: strip, optional sign, decimal digits.
(The rarely used underscore-separator form of numeric literals is not
modelled; no input in this development contains it.) -/
def pyIntStr (s : String) : Option Int :=
  let cs := (pyStrip s).toList
  let p : Int × List Char :=
    match cs with
    | '-' :: r => (-1, r)
    | '+' :: r => (1, r)
    | r => (1, r)
  if p.2 ≠ [] ∧ p.2.all Char.isDigit then some (p.1 * natOfDigits p.2) else none

/-- Truncation toward zero, Python `int(float)` (rationals are stored in
lowest terms with positive denominator). -/
def ratTrunc (q : Rat) : Int := q.num.tdiv (q.den : Int)

/-- Python `round(x)` on a float: round half to even, computed on the
numerator and denominator so that it evaluates structurally. -/
def pyRound (q : Rat) : Int :=
  let n := q.num
  let d : Int := (q.den : Int)
  let f := n.fdiv d
  let r := n - d * f
  if 2 * r < d then f
  else if 2 * r > d then f + 1
  else if f % 2 = 0 then f else f + 1

/-- The value of a parsed decimal mantissa with sign and decimal exponent,
built with `mkRat` so that it evaluates structurally:
`sgn * (ipart.fpart) * 10 ^ e`. -/
def decValue (sgn : Int) (ipart fpart : List Char) (e : Int) : Rat :=
  let mnum : Int := (natOfDigits ipart * 10 ^ fpart.length + natOfDigits fpart : Nat)
  let mden : Nat := 10 ^ fpart.length
  if 0 ≤ e then mkRat (sgn * mnum * 10 ^ e.toNat) mden
  else mkRat (sgn * mnum) (mden * 10 ^ (-e).toNat)

/-- Python `float(s)` on a string: strip, optional sign, decimal mantissa
with optional fraction and exponent; the result is the exact decimal value.
(The `inf`/`nan` spellings and underscore separators are not modelled; no
input here uses them.) -/
def pyFloatStr (s : String) : Option Rat :=
  let cs := (pyStrip s).toList
  let p : Int × List Char :=
    match cs with
    | '-' :: r => (-1, r)
    | '+' :: r => (1, r)
    | r => (1, r)
  let ip := p.2.takeWhile Char.isDigit
  let r1 := p.2.dropWhile Char.isDigit
  let fr : List Char × List Char :=
    match r1 with
    | '.' :: r2 => (r2.takeWhile Char.isDigit, r2.dropWhile Char.isDigit)
    | r2 => ([], r2)
  let fp := fr.1
  if ip = [] ∧ fp = [] then none
  else
    match fr.2 with
    | [] => some (decValue p.1 ip fp 0)
    | 'e' :: r4 =>
      (match r4 with
       | '-' :: r5 => if r5 ≠ [] ∧ r5.all Char.isDigit then
           some (decValue p.1 ip fp (-(natOfDigits r5 : Int))) else none
       | '+' :: r5 => if r5 ≠ [] ∧ r5.all Char.isDigit then
           some (decValue p.1 ip fp (natOfDigits r5 : Int)) else none
       | r5 => if r5 ≠ [] ∧ r5.all Char.isDigit then
           some (decValue p.1 ip fp (natOfDigits r5 : Int)) else none)
    | 'E' :: r4 =>
      (match r4 with
       | '-' :: r5 => if r5 ≠ [] ∧ r5.all Char.isDigit then
           some (decValue p.1 ip fp (-(natOfDigits r5 : Int))) else none
       | '+' :: r5 => if r5 ≠ [] ∧ r5.all Char.isDigit then
           some (decValue p.1 ip fp (natOfDigits r5 : Int)) else none
       | r5 => if r5 ≠ [] ∧ r5.all Char.isDigit then
           some (decValue p.1 ip fp (natOfDigits r5 : Int)) else none)
    | _ => none

/-- ASCII single-quote character, used by the Python repr rendering. -/
def squote : String := (Char.ofNat 39).toString

/-- Left-pad a numeral string with zeros to the given width. -/
def padZeros (w : Nat) (s : String) : String :=
  if s.length ≥ w then s else String.mk (List.replicate (w - s.length) '0') ++ s

/-- Python `str()` of a nonnegative float whose value is the given rational,
for the decimal values this program builds (denominator dividing a power of
ten); the unreachable general case falls back to a fraction rendering. -/
def ratReprNN (q : Rat) : String :=
  match (List.range 31).find? (fun k => 10 ^ k % q.den = 0) with
  | some k =>
    let m := q.num.toNat * (10 ^ k / q.den)
    let ip := m / 10 ^ k
    let fp := m % 10 ^ k
    if k = 0 then toString ip ++ ".0"
    else toString ip ++ "." ++ padZeros k (toString fp)
  | none => toString q.num ++ "/" ++ toString q.den

/-- Python `str()` of a float (exact decimal model). -/
def ratRepr (q : Rat) : String :=
  if q < 0 then "-" ++ ratReprNN (-q) else ratReprNN q

/-- Python `str(datetime.date(y, m, d))`: ISO rendering. -/
def dateRepr (y m d : Nat) : String :=
  padZeros 4 (toString y) ++ "-" ++ padZeros 2 (toString m) ++ "-" ++ padZeros 2 (toString d)

mutual

/-- Python `str`/`repr` rendering of a value; the Bool selects repr, which
quotes strings and is used for elements inside container renderings. -/
def pyRender : Bool → PVal → String
  | _, .none => "None"
  | _, .bool true => "True"
  | _, .bool false => "False"
  | _, .int n => toString n
  | _, .float q => ratRepr q
  | isR, .str s => if isR then squote ++ s ++ squote else s
  | _, .date y m d => dateRepr y m d
  | _, .list xs => "[" ++ pyRenderItems xs ++ "]"
  | _, .dict kvs => "\x7b" ++ pyRenderPairs kvs ++ "\x7d"

/-- Comma-separated repr of list elements. -/
def pyRenderItems : List PVal → String
  | [] => ""
  | [x] => pyRender true x
  | x :: xs => pyRender true x ++ ", " ++ pyRenderItems xs

/-- Comma-separated repr of dict entries. -/
def pyRenderPairs : List (String × PVal) → String
  | [] => ""
  | [(k, v)] => squote ++ k ++ squote ++ ": " ++ pyRender true v
  | (k, v) :: xs => squote ++ k ++ squote ++ ": " ++ pyRender true v ++ ", " ++ pyRenderPairs xs

end

/-- Python `str(v)`. -/
def pyStr (v : PVal) : String := pyRender false v

/-- Python `int(v)` on a value: `none` for arguments where `int()` raises. -/
def pyInt : PVal → Option Int
  | .int n => some n
  | .bool b => some (if b then 1 else 0)
  | .float q => some (ratTrunc q)
  | .str s => pyIntStr s
  | _ => none

/-! ## Chunk segmenter (`extractor._chunk_text`) -/

/-- One page appended to the running buffer: the code runs
`buf += ("\n" if buf else "") + p`. -/
def joinStep (buf p : String) : String := if buf = "" then p else buf ++ "\n" ++ p

/-- Loop of `extractor._chunk_text` over the remaining pages, carrying the
running buffer `buf`; on overflow the buffer (when non-empty) is emitted and
the current page starts a fresh buffer, and a final non-empty buffer is
emitted at the end. -/
def chunkGo (target : Nat) : List String → String → List String
  | [], buf => if buf = "" then [] else [buf]
  | p :: ps, buf =>
    if buf.length + p.length + 1 > target then
      (if buf = "" then chunkGo target ps p else buf :: chunkGo target ps p)
    else chunkGo target ps (joinStep buf p)

/-- Embedding of `extractor._chunk_text(pages, target_chars)`. -/
def chunkText (pages : List String) (target : Nat) : List String :=
  chunkGo target pages ""

/-- The text of one chunk, as the newline join of its group of pages. -/
def pageJoin (g : List String) : String := g.foldl joinStep ""

theorem chunkGo_groups (target : Nat) :
    ∀ (ps : List String) (buf : String),
      ∃ (g : List String) (gs : List (List String)), ps = g ++ gs.flatten ∧
        chunkGo target ps buf =
          (g.foldl joinStep buf :: gs.map pageJoin).filter (fun s => decide (s ≠ "")) := by
  intro ps
  induction ps with
  | nil =>
    intro buf
    refine ⟨[], [], rfl, ?_⟩
    by_cases h : buf = "" <;> simp [chunkGo, h]
  | cons p ps ih =>
    intro buf
    by_cases hov : buf.length + p.length + 1 > target
    · by_cases hb : buf = ""
      · obtain ⟨g, gs, hps, hc⟩ := ih p
        refine ⟨p :: g, gs, by simp [hps], ?_⟩
        subst hb
        simpa [chunkGo, hov, joinStep] using hc
      · obtain ⟨g, gs, hps, hc⟩ := ih p
        refine ⟨[], (p :: g) :: gs, by simp [hps], ?_⟩
        have hpj : pageJoin (p :: g) = g.foldl joinStep p := by
          simp [pageJoin, joinStep]
        simp only [chunkGo, if_pos hov, if_neg hb, List.map_cons, List.foldl_nil,
          List.filter_cons, hpj]
        rw [if_pos (by simp [hb])]
        rw [hc, List.filter_cons]
    · obtain ⟨g, gs, hps, hc⟩ := ih (joinStep buf p)
      refine ⟨p :: g, gs, by simp [hps], ?_⟩
      simpa [chunkGo, hov] using hc

theorem chunkGo_bound (target : Nat) (P : List String) :
    ∀ (ps : List String) (buf : String),
      (buf.length ≤ target ∨ buf ∈ P) → (∀ p ∈ ps, p ∈ P) →
      ∀ c ∈ chunkGo target ps buf, c.length ≤ target ∨ c ∈ P := by
  intro ps
  induction ps with
  | nil =>
    intro buf hbuf _ c hc
    by_cases h : buf = "" <;> simp [chunkGo, h] at hc
    exact hc ▸ hbuf
  | cons p ps ih =>
    intro buf hbuf hmem c hc
    by_cases hov : buf.length + p.length + 1 > target
    · by_cases hb : buf = ""
      · rw [chunkGo, if_pos hov, if_pos hb] at hc
        exact ih p (Or.inr (hmem p (by simp))) (fun q hq => hmem q (by simp [hq])) c hc
      · rw [chunkGo, if_pos hov, if_neg hb] at hc
        rcases List.mem_cons.mp hc with h | h
        · exact h ▸ hbuf
        · exact ih p (Or.inr (hmem p (by simp))) (fun q hq => hmem q (by simp [hq])) c h
    · rw [chunkGo, if_neg hov] at hc
      have hlen : (joinStep buf p).length ≤ target := by
        have h1 : ("\n" : String).length = 1 := rfl
        by_cases hb : buf = "" <;>
          simp [joinStep, hb, String.length_append, h1] <;> omega
      exact ih (joinStep buf p) (Or.inl hlen) (fun q hq => hmem q (by simp [hq])) c hc

theorem chunkGo_self_mem (target : Nat) :
    ∀ (ps : List String) (buf : String), target < buf.length → buf ∈ chunkGo target ps buf := by
  intro ps
  induction ps with
  | nil =>
    intro buf h
    have hb : buf ≠ "" := by
      intro e
      rw [e] at h
      simp at h
    simp [chunkGo, hb]
  | cons p ps ih =>
    intro buf h
    have hov : buf.length + p.length + 1 > target := by omega
    have hb : buf ≠ "" := by
      intro e
      rw [e] at h
      simp at h
    rw [chunkGo, if_pos hov, if_neg hb]
    exact List.mem_cons_self _ _

theorem chunkGo_oversized_mem (target : Nat) :
    ∀ (ps : List String) (buf q : String), q ∈ ps → target < q.length →
      q ∈ chunkGo target ps buf := by
  intro ps
  induction ps with
  | nil => intro buf q hq _; simp at hq
  | cons p ps ih =>
    intro buf q hq hlen
    rcases List.mem_cons.mp hq with h | h
    · subst h
      have hov : buf.length + q.length + 1 > target := by omega
      by_cases hb : buf = ""
      · rw [chunkGo, if_pos hov, if_pos hb]
        exact chunkGo_self_mem target ps q hlen
      · rw [chunkGo, if_pos hov, if_neg hb]
        exact List.mem_cons_of_mem _ (chunkGo_self_mem target ps q hlen)
    · by_cases hov : buf.length + p.length + 1 > target
      · by_cases hb : buf = ""
        · rw [chunkGo, if_pos hov, if_pos hb]
          exact ih p q h hlen
        · rw [chunkGo, if_pos hov, if_neg hb]
          exact List.mem_cons_of_mem _ (ih p q h hlen)
      · rw [chunkGo, if_neg hov]
        exact ih (joinStep buf p) q h hlen

/-- C3 (counterexample): the claim that concatenating all chunks reproduces
the original page sequence exactly, with no characters dropped or
duplicated, is false: the segmenter inserts a newline separator between
pages packed into the same chunk, so for pages `["a", "b"]` under the
default budget the single chunk is `"a\n b"` (without the space) while the
page concatenation is `"ab"`. -/
theorem chunk_concat_counterexample :
    ¬ (String.join (chunkText ["a", "b"] 12000) = String.join ["a", "b"]) := by
  decide

/-- C3 (amended): the segmenter partitions the page sequence into
consecutive groups, each emitted chunk being its group joined with single
newline separators (a separator precedes each page added to a non-empty
buffer; groups joining to the empty string emit no chunk), so the chunk
concatenation reproduces the pages in order up to those inserted newline
separators; every chunk either stays within the character budget or is a
single (oversized) page kept whole; and every page longer than the budget
appears as its own chunk. -/
theorem chunkText_partition_bound_oversized :
    ∀ (pages : List String) (target : Nat),
      (∃ groups : List (List String), groups.flatten = pages ∧
        chunkText pages target = (groups.map pageJoin).filter (fun s => decide (s ≠ ""))) ∧
      (∀ c ∈ chunkText pages target, c.length ≤ target ∨ c ∈ pages) ∧
      (∀ p ∈ pages, target < p.length → p ∈ chunkText pages target) := by
  intro pages target
  refine ⟨?_, ?_, ?_⟩
  · obtain ⟨g, gs, hps, hc⟩ := chunkGo_groups target pages ""
    exact ⟨g :: gs, by simp [hps], by simpa [pageJoin] using hc⟩
  · intro c hc
    exact chunkGo_bound target pages pages "" (Or.inl (by simp)) (fun _ h => h) c hc
  · intro p hp hlen
    exact chunkGo_oversized_mem target pages "" p hp hlen

/-- C3 (witness): the amended theorem applied to a concrete oversized page,
a page of 3 characters under budget 2 is emitted as its own chunk. -/
theorem chunkText_oversized_witness : "abc" ∈ chunkText ["ab", "abc"] 2 :=
  (chunkText_partition_bound_oversized ["ab", "abc"] 2).2.2 "abc" (by decide) (by decide)

/-! ## Extraction retry loop (`extractor._process_chunk`, lines 99-122) -/

/-- Outcome of one call to the inference service: a response text, or a
failure that is either rate-limit-class (HTTP 429 / RateLimitError) or any
other exception class. -/
inductive CallOutcome where
  | success (resp : String)
  | failure (rateLimited : Bool)

/-- Embedding of the retry loop of `_process_chunk`: `outcomes i` is what
the service does on the i-th call, `jitter i` the value drawn by
`random.uniform(0, 1)` before the i-th retry sleep. Returns the final
result (`ok` response or `error` carrying the rate-limit flag of the raised
exception), the number of calls made, and the list of backoff delays slept.
The code starts at `attempt = 0`, retries only rate-limit failures while
`attempt < max_attempts = 5`, and sleeps `2 ** attempt + jitter`. -/
def retryGo (outcomes : Nat → CallOutcome) (jitter : Nat → Rat) (attempt : Nat) :
    Except Bool String × Nat × List Rat :=
  match outcomes attempt with
  | .success r => (.ok r, 1, [])
  | .failure rl =>
    if _h : rl = true ∧ attempt < 5 then
      let t := retryGo outcomes jitter (attempt + 1)
      (t.1, t.2.1 + 1, ((2 ^ attempt : Rat) + jitter attempt) :: t.2.2)
    else (.error rl, 1, [])
termination_by 5 - attempt
decreasing_by omega

/-- The full per-chunk call sequence starts at attempt 0. -/
def processChunkRetry (outcomes : Nat → CallOutcome) (jitter : Nat → Rat) :
    Except Bool String × Nat × List Rat :=
  retryGo outcomes jitter 0

theorem retryGo_success (outcomes : Nat → CallOutcome) (jitter : Nat → Rat)
    (attempt : Nat) (r : String) (h : outcomes attempt = .success r) :
    retryGo outcomes jitter attempt = (.ok r, 1, []) := by
  rw [retryGo, h]

theorem retryGo_nonrl (outcomes : Nat → CallOutcome) (jitter : Nat → Rat)
    (attempt : Nat) (h : outcomes attempt = .failure false) :
    retryGo outcomes jitter attempt = (.error false, 1, []) := by
  rw [retryGo, h]
  simp

theorem retryGo_all429 (outcomes : Nat → CallOutcome) (jitter : Nat → Rat)
    (h : ∀ i, i ≤ 5 → outcomes i = .failure true) :
    processChunkRetry outcomes jitter =
      (.error true, 6,
        [2 ^ 0 + jitter 0, 2 ^ 1 + jitter 1, 2 ^ 2 + jitter 2,
         2 ^ 3 + jitter 3, 2 ^ 4 + jitter 4]) := by
  have h5 : retryGo outcomes jitter 5 = (.error true, 1, []) := by
    rw [retryGo, h 5 (by norm_num)]
    simp
  have h4 : retryGo outcomes jitter 4 = (.error true, 2, [2 ^ 4 + jitter 4]) := by
    rw [retryGo, h 4 (by norm_num)]
    simp [h5]
  have h3 : retryGo outcomes jitter 3 =
      (.error true, 3, [2 ^ 3 + jitter 3, 2 ^ 4 + jitter 4]) := by
    rw [retryGo, h 3 (by norm_num)]
    simp [h4]
  have h2 : retryGo outcomes jitter 2 =
      (.error true, 4, [2 ^ 2 + jitter 2, 2 ^ 3 + jitter 3, 2 ^ 4 + jitter 4]) := by
    rw [retryGo, h 2 (by norm_num)]
    simp [h3]
  have h1 : retryGo outcomes jitter 1 =
      (.error true, 5,
       [2 ^ 1 + jitter 1, 2 ^ 2 + jitter 2, 2 ^ 3 + jitter 3, 2 ^ 4 + jitter 4]) := by
    rw [retryGo, h 1 (by norm_num)]
    simp [h2]
  rw [processChunkRetry, retryGo, h 0 (by norm_num)]
  simp [h1]

/-- C4 (counterexample): the claim of at most 5 attempts in total is false:
when every call fails with a rate-limit error, the loop makes 6 calls (the
initial call plus 5 retries), because retries run while `attempt < 5` and
`attempt` is incremented after each retried failure. -/
theorem retry_total_calls_counterexample :
    ¬ ((processChunkRetry (fun _ => .failure true) (fun _ => 0)).2.1 ≤ 5) := by
  rw [retryGo_all429 (fun _ => .failure true) (fun _ => 0) (fun i _ => rfl)]
  norm_num

/-- C4 (amended): a rate-limit-class failure is retried with exponential
backoff of `2 ^ attempt` seconds plus the drawn jitter, for attempts
0 through 4, i.e. up to 5 retries after the initial call (at most 6 calls
in total), after which the rate-limit failure surfaces as that chunk's
failure; a failure of any other class propagates immediately after a
single call, with no retry and no backoff sleep; a successful call ends
the loop at once. -/
theorem retry_policy_amended :
    ∀ (outcomes : Nat → CallOutcome) (jitter : Nat → Rat),
      ((∀ i, i ≤ 5 → outcomes i = .failure true) →
        processChunkRetry outcomes jitter =
          (.error true, 6,
            [2 ^ 0 + jitter 0, 2 ^ 1 + jitter 1, 2 ^ 2 + jitter 2,
             2 ^ 3 + jitter 3, 2 ^ 4 + jitter 4])) ∧
      (∀ attempt, outcomes attempt = .failure false →
        retryGo outcomes jitter attempt = (.error false, 1, [])) ∧
      (∀ attempt r, outcomes attempt = .success r →
        retryGo outcomes jitter attempt = (.ok r, 1, [])) :=
  fun outcomes jitter =>
    ⟨retryGo_all429 outcomes jitter,
     retryGo_nonrl outcomes jitter,
     fun attempt r h => retryGo_success outcomes jitter attempt r h⟩

/-- C4 (witness): the amended theorem applied to a service that fails with
a non-rate-limit error on the first call: exactly one call, no sleeps. -/
theorem retry_policy_witness :
    retryGo (fun _ => .failure false) (fun _ => 0) 0 = (.error false, 1, []) :=
  (retry_policy_amended (fun _ => .failure false) (fun _ => 0)).2.1 0 rfl

/-! ## Reconciliation engine (`extractor.extract_answers_async`, lines 156-216) -/

/-- One reconciled answer value: `_normalize_answer` always produces a dict
with a string answer, an integer confidence and a string source, modelled
as this structure. -/
structure AnsVal where
  answer : String
  confidence : Int
  source : String
deriving DecidableEq

/-- Embedding of `extractor._normalize_answer`: defaults
`answer = ""`, `confidence = 3`, `source = ""`; a dict supplies its literal
`answer`/`confidence`/`source` entries, confidence is passed through
`int()` (exceptions give 3) and reset to 3 when outside 1..10, a non-string
source is stringified (`None` becomes `""`), and a non-string answer is
stringified; a bare string is taken as the answer. -/
def normalizeAnswer (val : PVal) : AnsVal :=
  match val with
  | .dict kvs =>
    let answerV := pyGetD kvs "answer" (.str "")
    let conf0 := match pyInt (pyGetD kvs "confidence" (.int 3)) with
      | some n => n
      | none => 3
    let confidence := if 1 ≤ conf0 ∧ conf0 ≤ 10 then conf0 else 3
    let source := match pyGetD kvs "source" (.str "") with
      | .str s => s
      | .none => ""
      | v => pyStr v
    let answer := match answerV with
      | .str s => s
      | v => pyStr v
    ⟨answer, confidence, source⟩
  | .str s => ⟨s, 3, ""⟩
  | _ => ⟨"", 3, ""⟩

/-- Source merging of the final merge branch: append the new source after
`"; "` when it is non-empty and not already a substring, or set it directly
when the existing source is blank. -/
def mergeSource (existing newSrc : String) : String :=
  if newSrc ≠ "" ∧ ¬ strContains existing newSrc then
    (if pyStrip existing = "" then newSrc else existing ++ "; " ++ newSrc)
  else existing

/-- One step of the merge fold for a single key (`for data in results`
body): a `None` candidate is skipped; the first candidate is accepted; a
candidate arriving while the accepted answer is blank replaces it
unconditionally; a strictly higher confidence replaces it; otherwise only
the source is merged. -/
def mergeStep (cur : Option AnsVal) (val : PVal) : Option AnsVal :=
  if val.isNone then cur
  else
    let vo := normalizeAnswer val
    match cur with
    | Option.none => some vo
    | some c =>
      if pyStrip c.answer = "" then some vo
      else if vo.confidence > c.confidence then some vo
      else some { c with source := mergeSource c.source vo.source }

/-- The reconciled value for one key: fold the per-chunk dicts in chunk
order over `mergeStep` (the Python loop nests `for data in results` outside
`for k in keys`, but the update of `out[k]` depends only on the key's own
candidates, in chunk order), then apply the final default
`{answer: "", confidence: 1, source: ""}` for untouched keys. -/
def mergeKey (results : List (List (String × PVal))) (k : String) : AnsVal :=
  ((results.map (fun data => pyGetOrNone data k)).foldl mergeStep Option.none).getD ⟨"", 1, ""⟩

/-- Embedding of the reconciliation of `extract_answers_async`: one entry
per schema key (each per-chunk result is assumed to be a dict, as the
claims about the merge do). -/
def extractMerge (keys : List String) (results : List (List (String × PVal))) :
    List (String × AnsVal) :=
  keys.map (fun k => (k, mergeKey results k))

/-- Merge fold following the words of claim C1 (for comparison with the
code's `mergeStep`): no value is accepted until the first candidate with a
non-empty answer; afterwards only a strictly greater confidence replaces
the accepted value, otherwise the source is extended with `"; "`. -/
def claimMergeStep (cur : Option AnsVal) (val : PVal) : Option AnsVal :=
  if val.isNone then cur
  else
    let cand := normalizeAnswer val
    match cur with
    | Option.none => if cand.answer ≠ "" then some cand else Option.none
    | some c =>
      if cand.confidence > c.confidence then some cand
      else some { c with source :=
        if cand.source ≠ "" ∧ ¬ strContains c.source cand.source
        then c.source ++ "; " ++ cand.source else c.source }

/-- The per-key reduction described by claim C1, with the untouched-key
default of claim C5. -/
def claimMergeKey (results : List (List (String × PVal))) (k : String) : AnsVal :=
  ((results.map (fun data => pyGetOrNone data k)).foldl claimMergeStep Option.none).getD
    ⟨"", 1, ""⟩

/-- The reconciliation described by claim C1. -/
def claimMerge (keys : List String) (results : List (List (String × PVal))) :
    List (String × AnsVal) :=
  keys.map (fun k => (k, claimMergeKey results k))

/-- C1 (counterexample): the merge of the code differs from the merge the
claim describes. With candidates (in chunk order) `{X, 5, s1}`,
`{"", 9, s2}`, `{Y, 2, s3}` for one key, the code ends with `{Y, 2, s3}`
(the blank-answered accepted value is replaced unconditionally by the next
candidate, a rule the claim omits), while the claim's fold ends with
`{"", 9, "s2; s3"}`. -/
theorem merge_counterexample :
    extractMerge ["k"]
      [[("k", .dict [("answer", .str "X"), ("confidence", .int 5), ("source", .str "s1")])],
       [("k", .dict [("answer", .str ""), ("confidence", .int 9), ("source", .str "s2")])],
       [("k", .dict [("answer", .str "Y"), ("confidence", .int 2), ("source", .str "s3")])]] ≠
    claimMerge ["k"]
      [[("k", .dict [("answer", .str "X"), ("confidence", .int 5), ("source", .str "s1")])],
       [("k", .dict [("answer", .str ""), ("confidence", .int 9), ("source", .str "s2")])],
       [("k", .dict [("answer", .str "Y"), ("confidence", .int 2), ("source", .str "s3")])]] := by
  decide

/-- C1 (amended): the merge folds chunks in chunk order independently per
key; a `None` candidate is skipped; the first candidate is accepted even
when its answer is empty; a candidate arriving while the accepted answer is
blank replaces the accepted value unconditionally; otherwise a candidate
whose confidence strictly exceeds the accepted one's replaces it entirely
(answer, confidence and source); otherwise the accepted answer and
confidence are kept and only the source is extended by the candidate's
source (when non-empty and not already a substring) separated by `"; "`,
or set directly when the accepted source is blank. -/
theorem merge_rules_amended :
    (∀ (cur : Option AnsVal) (v : PVal), v.isNone = true → mergeStep cur v = cur) ∧
    (∀ v : PVal, v.isNone = false → mergeStep Option.none v = some (normalizeAnswer v)) ∧
    (∀ (c : AnsVal) (v : PVal), v.isNone = false → pyStrip c.answer = "" →
      mergeStep (some c) v = some (normalizeAnswer v)) ∧
    (∀ (c : AnsVal) (v : PVal), v.isNone = false → pyStrip c.answer ≠ "" →
      (normalizeAnswer v).confidence > c.confidence →
      mergeStep (some c) v = some (normalizeAnswer v)) ∧
    (∀ (c : AnsVal) (v : PVal), v.isNone = false → pyStrip c.answer ≠ "" →
      ¬ (normalizeAnswer v).confidence > c.confidence →
      mergeStep (some c) v = some { c with source :=
        if (normalizeAnswer v).source ≠ "" ∧ ¬ strContains c.source (normalizeAnswer v).source
        then (if pyStrip c.source = "" then (normalizeAnswer v).source
              else c.source ++ "; " ++ (normalizeAnswer v).source)
        else c.source }) := by
  refine ⟨?_, ?_, ?_, ?_, ?_⟩
  · intro cur v hv
    simp [mergeStep, hv]
  · intro v hv
    simp [mergeStep, hv]
  · intro c v hv hblank
    simp [mergeStep, hv, hblank]
  · intro c v hv hblank hconf
    simp [mergeStep, hv, hblank, hconf]
  · intro c v hv hblank hconf
    simp [mergeStep, mergeSource, hv, hblank, hconf]

/-- C1 (witness): the unconditional-replacement rule of the amended merge
at a concrete blank-answered accepted value. -/
theorem merge_rules_witness :
    mergeStep (some ⟨"", 9, "s2"⟩)
      (.dict [("answer", .str "Y"), ("confidence", .int 2), ("source", .str "s3")]) =
    some (normalizeAnswer
      (.dict [("answer", .str "Y"), ("confidence", .int 2), ("source", .str "s3")])) :=
  merge_rules_amended.2.2.1 ⟨"", 9, "s2"⟩ _ rfl rfl

theorem lookup_map_self (f : String → AnsVal) :
    ∀ (keys : List String) (k : String), k ∈ keys →
      (keys.map (fun k => (k, f k))).lookup k = some (f k) := by
  intro keys
  induction keys with
  | nil => intro k hk; simp at hk
  | cons a keys ih =>
    intro k hk
    by_cases h : k = a
    · subst h
      simp [List.lookup]
    · rcases List.mem_cons.mp hk with h1 | h1
      · exact absurd h1 h
      · have hba : (k == a) = false := by simp [h]
        simpa [List.lookup, hba] using ih k h1

theorem foldl_mergeStep_none :
    ∀ l : List PVal, (∀ v ∈ l, v.isNone = true) →
      l.foldl mergeStep Option.none = Option.none := by
  intro l
  induction l with
  | nil => intro _; rfl
  | cons v l ih =>
    intro h
    have hv : v.isNone = true := h v (by simp)
    have hstep : mergeStep Option.none v = Option.none := by simp [mergeStep, hv]
    simpa [hstep] using ih (fun w hw => h w (by simp [hw]))

/-- C5: the reconciled answer set is total over the schema keys (the output
mapping lists exactly the schema keys, in order), and a key to which no
chunk contributed (its `data.get(k)` is `None` for every chunk) maps to
exactly `{answer: "", confidence: 1, source: ""}`. -/
theorem answerset_total_default :
    ∀ (keys : List String) (results : List (List (String × PVal))),
      (extractMerge keys results).map Prod.fst = keys ∧
      ∀ k ∈ keys, (∀ data ∈ results, (pyGetOrNone data k).isNone = true) →
        (extractMerge keys results).lookup k = some ⟨"", 1, ""⟩ := by
  intro keys results
  constructor
  · have hcomp : (Prod.fst ∘ fun k => (k, mergeKey results k)) = fun k : String => k := rfl
    simp [extractMerge, hcomp]
  · intro k hk hnone
    have h1 : (extractMerge keys results).lookup k = some (mergeKey results k) :=
      lookup_map_self (mergeKey results) keys k hk
    have h2 : mergeKey results k = ⟨"", 1, ""⟩ := by
      rw [mergeKey, foldl_mergeStep_none]
      · rfl
      · intro v hv
        obtain ⟨data, hdata, hv⟩ := List.mem_map.mp hv
        exact hv ▸ hnone data hdata
    rw [h1, h2]

/-- C5 (witness): the totality-and-default theorem applied to one key never
contributed to by two chunks (one mentioning only another key, one empty). -/
theorem answerset_default_witness :
    (extractMerge ["alpha"] [[("beta", .str "x")], []]).lookup "alpha" =
      some ⟨"", 1, ""⟩ :=
  (answerset_total_default ["alpha"] [[("beta", .str "x")], []]).2 "alpha"
    (by decide) (by decide)

/-! ## Projection writer (`writer.py`) -/

/-- Clamp of the confidence tail of `_coerce_confidence`. -/
def clampConf (n : Int) : Int := if n < 1 then 1 else if n > 10 then 10 else n

/-- Embedding of `writer._coerce_confidence`: numbers (including booleans,
which Python treats as ints) go through `int(round(float(val)))` and are
clamped to 1..10; other values are stringified, digits and dots are
filtered out and parsed, with 3 on absence or any parse failure. -/
def coerceConfidence (val : PVal) : Int :=
  match val with
  | .none => 3
  | .int n => clampConf n
  | .bool b => clampConf (if b then 1 else 0)
  | .float q => clampConf (pyRound q)
  | v =>
    let s := pyStrip (pyStr v)
    if s = "" then 3
    else
      let num := String.mk (s.toList.filter (fun c => c.isDigit || c = '.'))
      if num = "" then 3
      else match pyFloatStr num with
        | some q => clampConf (pyRound q)
        | Option.none => 3

/-- Rendering of one element of a source page list, the code's
`f"Page ⟨p⟩" if isinstance(p, (int, float)) else str(p)` (Python booleans
are ints). -/
def joinPages (xs : List PVal) : String :=
  String.intercalate ", " (xs.map (fun p =>
    match p with
    | .int n => "Page " ++ toString n
    | .float q => "Page " ++ ratRepr q
    | .bool b => "Page " ++ (if b then "True" else "False")
    | v => pyStr v))

/-- Embedding of `writer._extract_structured`: the answer is the first
truthy of the `answer`/`value`/`text`/`result` entries (via the Python `or`
chain), `"Unknown"` when that chain ends in `None`; the confidence goes
through `_coerce_confidence`; the source is the first truthy of
`source`/`page`/`source_page`/`source_pages`, with a numeric scalar
rendered `"Page n"` (truncated), a list joined with `", "`, and
`"Unknown"` for `None` or the empty string; a non-dict value is the answer
itself (`"Unknown"` when `None`) with defaults 3 and `"Unknown"`. -/
def extractStructured (answerValue : PVal) : PVal × Int × String :=
  match answerValue with
  | .dict kvs =>
    let chain := pyOr (pyGetOrNone kvs "answer") (pyOr (pyGetOrNone kvs "value")
      (pyOr (pyGetOrNone kvs "text") (pyOr (pyGetOrNone kvs "result") .none)))
    let val := if chain.isNone then PVal.str "Unknown" else chain
    let conf := coerceConfidence (pyGetOrNone kvs "confidence")
    let srcChain := pyOr (pyGetOrNone kvs "source") (pyOr (pyGetOrNone kvs "page")
      (pyOr (pyGetOrNone kvs "source_page") (pyOr (pyGetOrNone kvs "source_pages") .none)))
    let source := match srcChain with
      | .none => "Unknown"
      | .str s => if s = "" then "Unknown" else s
      | .list xs => joinPages xs
      | .int n => "Page " ++ toString n
      | .float q => "Page " ++ toString (ratTrunc q)
      | .bool b => "Page " ++ (if b then "1" else "0")
      | v => pyStr v
    (val, conf, source)
  | .none => (.str "Unknown", 3, "Unknown")
  | v => (v, 3, "Unknown")

/-- Embedding of `writer._write_conf_source` value computation: the
confidence clamped to 1..10 (it is always an int here, so the
`not isinstance(conf, int)` branch is unreachable) and the source replaced
by `"Unknown"` when blank. -/
def writeConfSourceVals (conf : Int) (source : String) : Int × String :=
  (if conf < 1 then 1 else if conf > 10 then 10 else conf,
   if pyStrip source = "" then "Unknown" else source)

/-- Embedding of `writer._try_parse_number`: numbers pass through, other
values are stringified and stripped (`None` on empty), `$`/`,`/`%` are
removed, and the result is parsed as a float when it contains a dot and as
an int otherwise, falling back to the original value on parse failure. -/
def tryParseNumber (value : PVal) : PVal :=
  match value with
  | .none => .none
  | .int n => .int n
  | .float q => .float q
  | .bool b => .bool b
  | v =>
    let s := pyStrip (pyStr v)
    if s = "" then .none
    else
      let s2 := pyRemoveChar (pyRemoveChar (pyRemoveChar s (Char.ofNat 36)) ',') (Char.ofNat 37)
      if s2.toList.contains '.' then
        match pyFloatStr s2 with
        | some q => .float q
        | Option.none => v
      else
        match pyIntStr s2 with
        | some n => .int n
        | Option.none => v

/-- Gregorian leap year, as validated by `datetime.date`. -/
def isLeap (y : Nat) : Bool := y % 4 = 0 && (y % 100 ≠ 0 || y % 400 = 0)

/-- Days in a month, as validated by `datetime.date`. -/
def daysInMonth (y m : Nat) : Nat :=
  if m = 2 then (if isLeap y then 29 else 28)
  else if m = 4 ∨ m = 6 ∨ m = 9 ∨ m = 11 then 30 else 31

/-- The `strptime` `%Y` field: exactly four digits. -/
def parseYearField (s : String) : Option Nat :=
  let cs := s.toList
  if cs.length = 4 ∧ cs.all Char.isDigit then some (natOfDigits cs) else none

/-- The `strptime` `%m`/`%d` fields: one or two digits within the given
range (zero excluded, as in the CPython field patterns). -/
def parseNumField2 (s : String) (lo hi : Nat) : Option Nat :=
  let cs := s.toList
  if 1 ≤ cs.length ∧ cs.length ≤ 2 ∧ cs.all Char.isDigit then
    let v := natOfDigits cs
    if lo ≤ v ∧ v ≤ hi then some v else none
  else none

/-- Validation performed by the `datetime.date` constructor (year at least
1; the four-digit year field already bounds it above). -/
def mkValidDate (y m d : Nat) : Option (Nat × Nat × Nat) :=
  if 1 ≤ y ∧ 1 ≤ d ∧ d ≤ daysInMonth y m then some (y, m, d) else none

/-- One `strptime` date format over a single separator: year-month-day when
`ymd` is true, month-day-year otherwise. -/
def parseDateFmt (ymd : Bool) (sep : Char) (s : String) : Option (Nat × Nat × Nat) :=
  match splitChar s sep with
  | [a, b, c] =>
    if ymd then
      match parseYearField a, parseNumField2 b 1 12, parseNumField2 c 1 31 with
      | some y, some m, some d => mkValidDate y m d
      | _, _, _ => none
    else
      match parseNumField2 a 1 12, parseNumField2 b 1 31, parseYearField c with
      | some m, some d, some y => mkValidDate y m d
      | _, _, _ => none
  | _ => none

/-- The format sequence of `writer._try_parse_date`:
`%Y-%m-%d`, `%m/%d/%Y`, `%Y/%m/%d`, `%m-%d-%Y`, first success wins. -/
def tryParseDateStr (s : String) : Option (Nat × Nat × Nat) :=
  match parseDateFmt true '-' s with
  | some r => some r
  | Option.none =>
    match parseDateFmt false '/' s with
    | some r => some r
    | Option.none =>
      match parseDateFmt true '/' s with
      | some r => some r
      | Option.none => parseDateFmt false '-' s

/-- Embedding of `writer._try_parse_date`: values with date attributes pass
through, other values are stringified and stripped (`None` on empty), the
four formats are tried in order, and on failure the stripped string is
returned unchanged. -/
def tryParseDate (value : PVal) : PVal :=
  match value with
  | .none => .none
  | .date y m d => .date y m d
  | v =>
    let s := pyStrip (pyStr v)
    if s = "" then .none
    else match tryParseDateStr s with
      | some (y, m, d) => .date y m d
      | Option.none => .str s

/-- Embedding of `writer._normalize_yesno` (the trailing re-check of
`"yes"`/`"no"` in the source is dead code, kept here faithfully). -/
def normalizeYesno (value : PVal) : PVal :=
  match value with
  | .none => .none
  | v =>
    let s := pyLower (pyStrip (pyStr v))
    if s = "yes" ∨ s = "y" ∨ s = "true" ∨ s = "1" then .str "Yes"
    else if s = "no" ∨ s = "n" ∨ s = "false" ∨ s = "0" then .str "No"
    else if s ≠ "" then
      (if s = "yes" then .str "Yes" else if s = "no" then .str "No" else .str (pyStr v))
    else .none

/-- Embedding of `writer._coerce_for_cell`: the literal string `"null"`
(case-insensitive, after strip) becomes `None` for every answer type;
then the normalized answer type dispatches to date, number, yes/no or list
coercion, defaulting to the value as-is. -/
def coerceForCell (answerValue : PVal) (answerType : String) : PVal :=
  let ty := pyStrip (pyLower (if answerType = "" then "text" else answerType))
  let isNullStr := match answerValue with
    | .str s => pyLower (pyStrip s) == "null"
    | _ => false
  if isNullStr then .none
  else if ty = "date" then tryParseDate answerValue
  else if ty = "number" ∨ ty = "currency" then tryParseNumber answerValue
  else if ty = "yesno" then normalizeYesno answerValue
  else if ty = "list" then
    (match answerValue with
     | .list xs => .str (String.intercalate ", " (xs.map pyStr))
     | v => if v.isNone then .none else .str (pyStr v))
  else if answerValue.isNone then .none else answerValue

/-! ## Claim C2: normalization of raw per-key values -/

/-- First entry present (regardless of truthiness) among the given keys, as
the words of claim C2 state. -/
def claimFirstPresent (kvs : List (String × PVal)) : List String → Option PVal
  | [] => Option.none
  | k :: ks =>
    match pyLookup kvs k with
    | some v => some v
    | Option.none => claimFirstPresent kvs ks

/-- The normalization described by claim C2, applied (as the claim does) to
the orchestrator's production of an AnswerValue. -/
def claimC2Norm (v : PVal) : AnsVal :=
  match v with
  | .dict kvs =>
    let ans := match claimFirstPresent kvs ["answer", "value", "text", "result"] with
      | some (PVal.str s) => s
      | some w => pyStr w
      | Option.none => ""
    let conf := match pyLookup kvs "confidence" with
      | Option.none => 3
      | some cv =>
        match pyInt cv with
        | some n => clampConf n
        | Option.none => 3
    let src := match claimFirstPresent kvs ["source", "page", "source_page", "source_pages"] with
      | Option.none => "Unknown"
      | some (.list xs) => String.intercalate ", " (xs.map (fun p => "Page " ++ pyStr p))
      | some (.str s) => s
      | some w => pyStr w
    ⟨ans, conf, src⟩
  | .str s => ⟨s, 3, "Unknown"⟩
  | w => ⟨pyStr w, 3, "Unknown"⟩

/-- C2 (counterexample): the orchestrator's own normalization
(`extractor._normalize_answer`) does not behave as the claim states: for
the raw value with entries `value = "V"`, `confidence = 15`,
`source = "s"`, the claim requires answer `"V"` (fallback key) and
confidence clamped to 10, but the code reads only the literal `answer` key
(getting `""`) and resets the out-of-range confidence to 3. -/
theorem normalize_answer_counterexample :
    normalizeAnswer (.dict [("value", .str "V"), ("confidence", .int 15), ("source", .str "s")]) ≠
      claimC2Norm (.dict [("value", .str "V"), ("confidence", .int 15), ("source", .str "s")]) := by
  decide

/-- First truthy value among the given keys, used by the amended claim. -/
def firstTruthy (kvs : List (String × PVal)) (keyList : List String) : Option PVal :=
  (keyList.map (fun k => pyGetOrNone kvs k)).find? pyTruthy

/-- The normalization described by the amended claim C2: performed by the
projection writer, with first-truthy (not first-present) fallback, clamped
confidence, page rendering for numeric sources, and `"Unknown"` defaults. -/
def amendedC2Norm (v : PVal) : PVal × Int × String :=
  match v with
  | .dict kvs =>
    let ans := (firstTruthy kvs ["answer", "value", "text", "result"]).getD (.str "Unknown")
    let conf := coerceConfidence (pyGetOrNone kvs "confidence")
    let source := match firstTruthy kvs ["source", "page", "source_page", "source_pages"] with
      | Option.none => "Unknown"
      | some (.str s) => if s = "" then "Unknown" else s
      | some (.list xs) => joinPages xs
      | some (.int n) => "Page " ++ toString n
      | some (.float q) => "Page " ++ toString (ratTrunc q)
      | some (.bool b) => "Page " ++ (if b then "1" else "0")
      | some w => pyStr w
    (ans, conf, source)
  | .none => (.str "Unknown", 3, "Unknown")
  | w => (w, 3, "Unknown")

theorem pyOr_chain_find (a b c d : PVal) :
    pyOr a (pyOr b (pyOr c (pyOr d .none))) =
      (([a, b, c, d].find? pyTruthy).getD .none) := by
  by_cases ha : pyTruthy a <;> by_cases hb : pyTruthy b <;>
    by_cases hc : pyTruthy c <;> by_cases hd : pyTruthy d <;>
      simp [pyOr, List.find?, ha, hb, hc, hd]

theorem pyTruthy_not_none {v : PVal} (h : pyTruthy v = true) : v.isNone = false := by
  cases v <;> simp_all [pyTruthy, PVal.isNone]

/-- C2 (amended): the multi-key fallback normalization is performed by the
projection writer (`_extract_structured`), taking the answer from the
first truthy of `answer`/`value`/`text`/`result` (default `"Unknown"`),
the confidence through `_coerce_confidence` (clamped to 1..10, default 3),
and the source from the first truthy of
`source`/`page`/`source_page`/`source_pages` (numeric scalars rendered
`"Page n"` truncated, lists joined with `", "`, default `"Unknown"`);
a bare scalar is the answer itself with defaults 3 and `"Unknown"`. -/
theorem extract_structured_amended :
    ∀ v : PVal, extractStructured v = amendedC2Norm v := by
  intro v
  cases v with
  | dict kvs =>
    show extractStructured (.dict kvs) = amendedC2Norm (.dict kvs)
    rw [extractStructured, amendedC2Norm]
    rw [pyOr_chain_find (pyGetOrNone kvs "answer") (pyGetOrNone kvs "value")
      (pyGetOrNone kvs "text") (pyGetOrNone kvs "result")]
    rw [pyOr_chain_find (pyGetOrNone kvs "source") (pyGetOrNone kvs "page")
      (pyGetOrNone kvs "source_page") (pyGetOrNone kvs "source_pages")]
    have hval : ∀ o : Option PVal, o = [pyGetOrNone kvs "answer", pyGetOrNone kvs "value",
        pyGetOrNone kvs "text", pyGetOrNone kvs "result"].find? pyTruthy →
        (if (o.getD PVal.none).isNone then PVal.str "Unknown" else o.getD PVal.none) =
          o.getD (.str "Unknown") := by
      intro o ho
      cases o with
      | none => simp [PVal.isNone]
      | some t =>
        have ht : pyTruthy t = true := List.find?_some ho.symm
        simp [pyTruthy_not_none ht]
    rw [hval _ rfl]
    simp only [firstTruthy, List.map_cons, List.map_nil]
    rcases hfind : [pyGetOrNone kvs "source", pyGetOrNone kvs "page",
        pyGetOrNone kvs "source_page", pyGetOrNone kvs "source_pages"].find? pyTruthy
      with _ | t
    · rfl
    · have ht : pyTruthy t = true := List.find?_some hfind
      cases t <;> first | rfl | simp [pyTruthy] at ht
  | _ => rfl

/-! ## Claims C6 and C9: cell coercion and Unknown defaults -/

/-- C6: coercing `"$1,234.50"` as currency yields the number 1234.5;
coercing `"2024-03-01"` as date yields March 1, 2024; coercing `"yes"` as
yesno yields `"Yes"`; and any string that strips and lowercases to
`"null"` coerces to an absent value under every answer type. -/
theorem coercion_roundtrip :
    coerceForCell (.str "$1,234.50") "currency" = .float (mkRat 2469 2) ∧
    (mkRat 2469 2 : Rat) = 1234.5 ∧
    coerceForCell (.str "2024-03-01") "date" = .date 2024 3 1 ∧
    coerceForCell (.str "yes") "yesno" = .str "Yes" ∧
    ∀ (s ty : String), pyLower (pyStrip s) = "null" → coerceForCell (.str s) ty = .none := by
  refine ⟨by rfl, by norm_num [Rat.mkRat_eq_div], by rfl, by rfl, ?_⟩
  intro s ty h
  simp [coerceForCell, h]

/-- C6 (witness): the universal null clause of the round-trip theorem at a
concrete mixed-case input and answer type. -/
theorem coercion_null_witness : coerceForCell (.str " NULL ") "date" = .none :=
  coercion_roundtrip.2.2.2.2 " NULL " "date" (by rfl)

theorem coerce_unknown (ty : String) :
    coerceForCell (.str "Unknown") ty = .str "Unknown" := by
  show (if (pyLower (pyStrip "Unknown") == "null") = true then PVal.none
    else if pyStrip (pyLower (if ty = "" then "text" else ty)) = "date" then
      tryParseDate (.str "Unknown")
    else if pyStrip (pyLower (if ty = "" then "text" else ty)) = "number" ∨
        pyStrip (pyLower (if ty = "" then "text" else ty)) = "currency" then
      tryParseNumber (.str "Unknown")
    else if pyStrip (pyLower (if ty = "" then "text" else ty)) = "yesno" then
      normalizeYesno (.str "Unknown")
    else if pyStrip (pyLower (if ty = "" then "text" else ty)) = "list" then
      .str (pyStr (.str "Unknown"))
    else .str "Unknown") = .str "Unknown"
  split_ifs <;> first | rfl | (exact absurd (by assumption) (by decide))

/-- C9: a question field whose reconciled AnswerValue has an empty or
missing answer (`None` or `""`) has the string `"Unknown"` written to the
answer column under every answer type, and an empty or missing source is
likewise written to the source column as `"Unknown"`. -/
theorem unknown_written_for_blank :
    ∀ (a c s : PVal) (ty : String),
      (a = PVal.none ∨ a = PVal.str "") → (s = PVal.none ∨ s = PVal.str "") →
      coerceForCell
          (extractStructured (.dict [("answer", a), ("confidence", c), ("source", s)])).1 ty
        = .str "Unknown" ∧
      (writeConfSourceVals
          (extractStructured (.dict [("answer", a), ("confidence", c), ("source", s)])).2.1
          (extractStructured (.dict [("answer", a), ("confidence", c), ("source", s)])).2.2).2
        = "Unknown" := by
  intro a c s ty ha hs
  rcases ha with rfl | rfl <;> rcases hs with rfl | rfl <;>
    exact ⟨by simp [extractStructured, pyGetOrNone, pyLookup, pyOr, pyTruthy, PVal.isNone,
            coerce_unknown],
          by simp [extractStructured, pyGetOrNone, pyLookup, pyOr, pyTruthy, PVal.isNone,
            writeConfSourceVals]⟩

/-- C9 (witness): the Unknown-writing theorem at a concrete blank answer
and missing source under the yesno type. -/
theorem unknown_written_witness :
    coerceForCell
        (extractStructured
          (.dict [("answer", .str ""), ("confidence", .int 7), ("source", PVal.none)])).1 "yesno"
      = .str "Unknown" ∧
    (writeConfSourceVals
        (extractStructured
          (.dict [("answer", .str ""), ("confidence", .int 7), ("source", PVal.none)])).2.1
        (extractStructured
          (.dict [("answer", .str ""), ("confidence", .int 7), ("source", PVal.none)])).2.2).2
      = "Unknown" :=
  unknown_written_for_blank (.str "") (.int 7) PVal.none "yesno" (Or.inr rfl) (Or.inl rfl)

/-! ## Schema loader (`mapping.py`) and writer row processing (`writer.fill_template`) -/

/-- The allowed answer types of `mapping.ALLOWED_TYPES`. -/
def ALLOWED_TYPES : List String :=
  ["text", "date", "number", "currency", "yesno", "list", "email", "phone", "location"]

/-- Embedding of `mapping._norm_bool`. -/
def normBool (v : String) : Bool :=
  let s := pyLower (pyStrip v)
  s == "y" || s == "yes" || s == "true" || s == "1"

/-- The `alias_map` of `load_mapping`, in source order (entries whose keys
contain removed characters are unreachable, kept faithfully). -/
def aliasPairs : List (String × String) :=
  [("yesno", "yesno"), ("yesn", "yesno"), ("yn", "yesno"), ("boolean", "yesno"),
   ("pct", "number"), ("percentage", "number"), ("percent", "number"),
   ("money", "currency"), ("usd", "currency"), ("dollars", "currency"),
   ("phonenumber", "phone"), ("telephone", "phone"), ("tel", "phone"),
   ("emailaddress", "email"), ("email", "email"), ("e-mail", "email"),
   ("locationaddress", "location"), ("addr", "location"),
   ("datetime", "date"), ("dateandtime", "date"), ("date_time", "date"),
   ("datetimelocation", "text"), ("dateandtimelocation", "text"),
   ("date/time", "date"), ("date-time", "date")]

/-- Alias resolution of `load_mapping`: spaces, slashes and hyphens are
removed for matching; an unmatched type keeps its raw spelling. -/
def aliasResolve (atRaw : String) : String :=
  let atSimple := pyRemoveChar (pyRemoveChar (pyRemoveChar atRaw ' ') '/') '-'
  ((aliasPairs.find? (fun p => p.1 == atSimple)).map Prod.snd).getD atRaw

/-- The `key_re` regex `^[a-z0-9_]+$`. -/
def keyReOk (k : String) : Bool :=
  k != "" && k.toList.all (fun c => c.isDigit || ('a' ≤ c && c ≤ 'z') || c = '_')

/-- The `cell_re` regex `^[A-Za-z]{1,3}[0-9]{1,6}$`. -/
def cellReOk (c : String) : Bool :=
  let letters := c.toList.takeWhile Char.isAlpha
  let digits := c.toList.drop letters.length
  1 ≤ letters.length && letters.length ≤ 3 &&
    1 ≤ digits.length && digits.length ≤ 6 && digits.all Char.isDigit

/-- One normalized CSV row as it enters the validation loop of
`load_mapping` (all fields already strings, defaults applied by
`setdefault`). -/
structure NormRow where
  sheet : String
  cell : String
  text : String
  is_question : String
  json_key : String
  answer_type : String
  notes : String
  confidence : String
  source : String

/-- One loaded schema row (`mapping.MapRow`). -/
structure MapRow where
  sheet : String
  cell : String
  text : String
  is_question : Bool
  json_key : String
  answer_type : String
  notes : String
  confidence : Rat
  source : String

/-- The resolved answer type of a row:
`(r.get("answer_type", "") or "text").strip().lower()` then the alias
table. -/
def rowAtResolved (r : NormRow) : String :=
  aliasResolve (pyLower (pyStrip (if r.answer_type = "" then "text" else r.answer_type)))

/-- Embedding of the per-row validation of `load_mapping` (lines 154-219):
key-format and answer-type checks abort with an error only for question
rows; missing or suspicious cells only produce warnings; the MapRow is
built with stripped fields and defaults. -/
def processNormRow (r : NormRow) : Except String (MapRow × List String) :=
  let isq := normBool r.is_question
  let key := pyStrip r.json_key
  let at' := rowAtResolved r
  if isq ∧ key ≠ "" ∧ ¬ keyReOk key then
    .error ("Invalid json_key " ++ squote ++ key ++ squote ++
      " (use lowercase/underscores only).")
  else if isq ∧ ¬ (at' ∈ ALLOWED_TYPES) then
    .error ("Unknown answer_type " ++ squote ++ at' ++ squote ++ " for key " ++
      squote ++ key ++ squote ++ ".")
  else
    let warnings :=
      if isq then
        (if pyStrip r.cell = "" then
          ["Missing cell for question key " ++ squote ++ key ++ squote ++ " on sheet " ++
            squote ++ pyStrip (if r.sheet = "" then "Bid Information" else r.sheet) ++ squote]
        else if ¬ cellReOk (pyStrip r.cell) then
          ["Suspicious cell address " ++ squote ++ pyStrip r.cell ++ squote ++
            " for key " ++ squote ++ key ++ squote]
        else [])
      else []
    .ok ({ sheet := pyStrip (if r.sheet = "" then "Bid Information" else r.sheet),
           cell := pyStrip r.cell, text := pyStrip r.text, is_question := isq,
           json_key := key, answer_type := at', notes := pyStrip r.notes,
           confidence := (pyFloatStr r.confidence).getD 0,
           source := pyStrip r.source }, warnings)

/-- Embedding of `Mapping.json_keys`: keys of question rows, empty keys
excluded by the truthiness filter. -/
def jsonKeysOf (rows : List MapRow) : List String :=
  ((rows.filter (fun r => r.is_question)).map (fun r => r.json_key)).filter
    (fun k => k != "")

/-- Embedding of openpyxl `coordinate_from_string` as used by
`writer._targets`: the regex `^[$]?([A-Za-z]{1,3})[$]?(\d+)$` plus the
rejection of row 0; `none` models the raised CellCoordinatesError. -/
def parseCoordinate (s : String) : Option (String × Nat) :=
  let cs := s.toList
  let cs1 := if cs.head? = some (Char.ofNat 36) then cs.tail else cs
  let letters := cs1.takeWhile Char.isAlpha
  let rest := cs1.drop letters.length
  let rest1 := if rest.head? = some (Char.ofNat 36) then rest.tail else rest
  let digits := rest1.takeWhile Char.isDigit
  let rest2 := rest1.drop digits.length
  if 1 ≤ letters.length ∧ letters.length ≤ 3 ∧ digits ≠ [] ∧ rest2 = [] then
    (if natOfDigits digits = 0 then none else some (String.mk letters, natOfDigits digits))
  else none

/-- What happens to one mapping row in `fill_template`: skipped for an
empty key, skipped for an empty cell, or written (resolved sheet, row
index, coerced answer for column B, confidence for C, source for D). -/
inductive RowOutcome where
  | skippedKey
  | skippedCell
  | written (sheet : String) (rowIdx : Nat) (answer : PVal) (conf : Int) (src : String)

/-- Embedding of one iteration of the row loop of `fill_template` together
with `_targets`: rows without a key are skipped with a warning; `_targets`
returns no row index for an empty cell (skip); a non-empty unparseable
cell raises out of `coordinate_from_string` (the `.error` case), which the
per-row try/except does not cover. -/
def fillRow (sheetnames : List String) (answers : List (String × PVal)) (row : MapRow) :
    Except String RowOutcome :=
  if row.json_key = "" then .ok .skippedKey
  else
    let sheet := if row.sheet ∈ sheetnames then row.sheet else sheetnames.headD ""
    if row.cell = "" then .ok .skippedCell
    else
      match parseCoordinate row.cell with
      | Option.none => .error row.cell
      | some pr =>
        let rv := pyGetOrNone answers row.json_key
        let e := extractStructured rv
        let ty := pyStrip (pyLower (if row.answer_type = "" then "text" else row.answer_type))
        let cs := writeConfSourceVals e.2.1 e.2.2
        .ok (.written sheet pr.2 (coerceForCell e.1 ty) cs.1 cs.2)

/-- The row loop of `fill_template`: an uncaught exception from
`_targets` aborts the remaining rows. -/
def fillRows (sheetnames : List String) (answers : List (String × PVal)) :
    List MapRow → Except String (List RowOutcome)
  | [] => .ok []
  | r :: rs =>
    match fillRow sheetnames answers r with
    | .error e => .error e
    | .ok o =>
      match fillRows sheetnames answers rs with
      | .error e => .error e
      | .ok os => .ok (o :: os)

/-- C8 (code bug): a question row whose cell coordinate is present but
unparseable (here `"ABC"`, letters without a row number) is accepted by
the schema loader with only a non-fatal warning, yet `fill_template`
calls `coordinate_from_string` outside its per-row try/except, so the
raised CellCoordinatesError aborts the whole write: processing the three
rows stops at the bad one with an error and the following row is never
written, where the claim (and the per-row isolation the code itself
attempts) requires the row to be skipped. -/
theorem unparseable_cell_aborts :
    processNormRow ⟨"Bid Information", "ABC", "Bonded?", "yes", "bonded", "yesno", "", "0.0", ""⟩
      = Except.ok
        (⟨"Bid Information", "ABC", "Bonded?", true, "bonded", "yesno", "", 0, ""⟩,
         ["Suspicious cell address " ++ squote ++ "ABC" ++ squote ++ " for key " ++
           squote ++ "bonded" ++ squote]) ∧
    fillRows ["Bid Information"] [("k1", .str "a"), ("bonded", .str "yes"), ("k2", .str "b")]
      [⟨"Bid Information", "B2", "Q1", true, "k1", "text", "", 0, ""⟩,
       ⟨"Bid Information", "ABC", "Bonded?", true, "bonded", "yesno", "", 0, ""⟩,
       ⟨"Bid Information", "B4", "Q2", true, "k2", "text", "", 0, ""⟩]
      = .error "ABC" :=
  ⟨by rfl, by rfl⟩

/-- C10: a question row whose json_key is empty (after strip) passes the
loader's key-format check and fails only if its resolved answer type is
not allowed; the extraction key list never contains the empty key; and the
writer skips such a row with no cell write and continues with the
remaining rows. -/
theorem empty_key_rows :
    (∀ r : NormRow, normBool r.is_question = true → pyStrip r.json_key = "" →
      ((processNormRow r).isOk = true ↔ rowAtResolved r ∈ ALLOWED_TYPES)) ∧
    (∀ rows : List MapRow, "" ∉ jsonKeysOf rows) ∧
    (∀ (sheetnames : List String) (answers : List (String × PVal)) (row : MapRow)
        (rs : List MapRow), row.json_key = "" →
      fillRows sheetnames answers (row :: rs) =
        (fillRows sheetnames answers rs).map (fun os => RowOutcome.skippedKey :: os)) := by
  refine ⟨?_, ?_, ?_⟩
  · intro r hq hk
    rw [processNormRow, hk]
    by_cases hmem : rowAtResolved r ∈ ALLOWED_TYPES <;>
      simp [hq, hmem, Except.isOk, Except.toBool]
  · intro rows
    simp [jsonKeysOf]
  · intro sheetnames answers row rs h
    rw [fillRows, fillRow, if_pos h]
    cases fillRows sheetnames answers rs <;> simp [Except.map]

/-- C10 (witness): the loader clause applied to a concrete question row
with a whitespace json_key and the answer-type alias `boolean`. -/
theorem empty_key_rows_witness :
    (processNormRow ⟨"", "B2", "Q", "yes", " ", "boolean", "", "0.0", ""⟩).isOk = true :=
  (empty_key_rows.1 ⟨"", "B2", "Q", "yes", " ", "boolean", "", "0.0", ""⟩
    (by decide) (by decide)).mpr (by decide)

/-! ## Defensive response parsing (`extractor._process_chunk`, lines 128-143) -/

/-- The opening brace character. -/
def lbrace : Char := Char.ofNat 123

/-- The closing brace character. -/
def rbrace : Char := Char.ofNat 125

/-- JSON whitespace. -/
def isJWs (c : Char) : Bool := c = ' ' || c = '\t' || c = '\n' || c = '\r'

/-- Skip JSON whitespace. -/
def skipWs (cs : List Char) : List Char := cs.dropWhile isJWs

/-- Value of a hexadecimal digit. -/
def hexVal (c : Char) : Option Nat :=
  if c.isDigit then some (c.toNat - 48)
  else if 'a' ≤ c ∧ c ≤ 'f' then some (c.toNat - 87)
  else if 'A' ≤ c ∧ c ≤ 'F' then some (c.toNat - 55)
  else none

/-- JSON string body parser (after the opening quote), with the standard
escapes; strict mode rejects raw control characters. (Surrogate-pair
decoding of `\u` escapes is not modelled; no input here uses it.) -/
def parseJStr : List Char → Option (String × List Char)
  | [] => Option.none
  | '"' :: rest => some ("", rest)
  | '\\' :: rest =>
    (match rest with
     | [] => Option.none
     | e :: rest2 =>
       let esc : Option Char :=
         if e = '"' then some '"'
         else if e = '\\' then some '\\'
         else if e = '/' then some '/'
         else if e = 'b' then some (Char.ofNat 8)
         else if e = 'f' then some (Char.ofNat 12)
         else if e = 'n' then some '\n'
         else if e = 'r' then some '\r'
         else if e = 't' then some '\t'
         else Option.none
       match esc with
       | some c => (parseJStr rest2).map (fun p => (String.mk (c :: p.1.toList), p.2))
       | Option.none =>
         if e = 'u' then
           match rest2 with
           | a :: b :: c :: d :: rest3 =>
             (match hexVal a, hexVal b, hexVal c, hexVal d with
              | some x, some y, some z, some w =>
                (parseJStr rest3).map (fun p =>
                  (String.mk (Char.ofNat (((x * 16 + y) * 16 + z) * 16 + w) :: p.1.toList),
                   p.2))
              | _, _, _, _ => Option.none)
           | _ => Option.none
         else Option.none)
  | c :: rest =>
    if c.toNat < 32 then Option.none
    else (parseJStr rest).map (fun p => (String.mk (c :: p.1.toList), p.2))

/-- JSON exponent part after `e`/`E`: optional sign then digits. -/
def parseExp (cs : List Char) : Option (Int × List Char) :=
  match cs with
  | '-' :: r =>
    if r.takeWhile Char.isDigit = [] then Option.none
    else some (-(natOfDigits (r.takeWhile Char.isDigit) : Int), r.dropWhile Char.isDigit)
  | '+' :: r =>
    if r.takeWhile Char.isDigit = [] then Option.none
    else some ((natOfDigits (r.takeWhile Char.isDigit) : Int), r.dropWhile Char.isDigit)
  | r =>
    if r.takeWhile Char.isDigit = [] then Option.none
    else some ((natOfDigits (r.takeWhile Char.isDigit) : Int), r.dropWhile Char.isDigit)

/-- JSON number parser: optional minus, integer part without leading
zeros, optional fraction, optional exponent; an integer without fraction
and exponent parses to a Python int, anything else to a float. -/
def parseJNum (cs : List Char) : Option (PVal × List Char) :=
  let p : Int × List Char := match cs with | '-' :: r => (-1, r) | r => (1, r)
  let ip := p.2.takeWhile Char.isDigit
  let r1 := p.2.dropWhile Char.isDigit
  if ip = [] then Option.none
  else if 1 < ip.length ∧ ip.head? = some '0' then Option.none
  else
    match r1 with
    | '.' :: r2 =>
      let fp := r2.takeWhile Char.isDigit
      let r3 := r2.dropWhile Char.isDigit
      if fp = [] then Option.none
      else
        (match r3 with
         | 'e' :: r4 => (parseExp r4).map (fun pe => (.float (decValue p.1 ip fp pe.1), pe.2))
         | 'E' :: r4 => (parseExp r4).map (fun pe => (.float (decValue p.1 ip fp pe.1), pe.2))
         | r4 => some (.float (decValue p.1 ip fp 0), r4))
    | 'e' :: r4 => (parseExp r4).map (fun pe => (.float (decValue p.1 ip [] pe.1), pe.2))
    | 'E' :: r4 => (parseExp r4).map (fun pe => (.float (decValue p.1 ip [] pe.1), pe.2))
    | r4 => some (.int (p.1 * (natOfDigits ip : Int)), r4)

/-- Task of the fueled JSON parser: a value, the elements of an array, or
the members of an object (with the accumulated prefix). -/
inductive JTask where
  | jval (cs : List Char)
  | jarr (cs : List Char) (acc : List PVal)
  | jobj (cs : List Char) (acc : List (String × PVal))

/-- Recursive-descent JSON value parser, one step of fuel per recursive
call; the fuel supplied by `jsonLoads` always suffices for its inputs. -/
def pj : Nat → JTask → Option (PVal × List Char)
  | 0, _ => Option.none
  | f + 1, .jval cs =>
    (match skipWs cs with
     | [] => Option.none
     | c :: rest =>
       if c = lbrace then
         (match skipWs rest with
          | c2 :: r2 => if c2 = rbrace then some (.dict [], r2) else pj f (.jobj (c2 :: r2) [])
          | [] => Option.none)
       else if c = '[' then
         (match skipWs rest with
          | ']' :: r2 => some (.list [], r2)
          | r2 => pj f (.jarr r2 []))
       else if c = '"' then (parseJStr rest).map (fun p => (PVal.str p.1, p.2))
       else if c = 'n' then
         (match rest with | 'u' :: 'l' :: 'l' :: r => some (.none, r) | _ => Option.none)
       else if c = 't' then
         (match rest with | 'r' :: 'u' :: 'e' :: r => some (.bool true, r) | _ => Option.none)
       else if c = 'f' then
         (match rest with
          | 'a' :: 'l' :: 's' :: 'e' :: r => some (.bool false, r)
          | _ => Option.none)
       else if c.isDigit || c = '-' then parseJNum (c :: rest)
       else Option.none)
  | f + 1, .jarr cs acc =>
    (match pj f (.jval cs) with
     | some (v, rest) =>
       (match skipWs rest with
        | c :: r2 =>
          if c = ',' then pj f (.jarr r2 (acc ++ [v]))
          else if c = ']' then some (.list (acc ++ [v]), r2)
          else Option.none
        | [] => Option.none)
     | Option.none => Option.none)
  | f + 1, .jobj cs acc =>
    (match skipWs cs with
     | c :: r1 =>
       if c = '"' then
         match parseJStr r1 with
         | some (k, r2) =>
           (match skipWs r2 with
            | ':' :: r3 =>
              (match pj f (.jval r3) with
               | some (v, r4) =>
                 (match skipWs r4 with
                  | c2 :: r5 =>
                    if c2 = ',' then pj f (.jobj r5 (acc ++ [(k, v)]))
                    else if c2 = rbrace then some (.dict (acc ++ [(k, v)]), r5)
                    else Option.none
                  | [] => Option.none)
               | Option.none => Option.none)
            | _ => Option.none)
         | Option.none => Option.none
       else Option.none
     | [] => Option.none)

/-- Embedding of `json.loads`: parse one value, require only whitespace
after it. (The non-standard `NaN`/`Infinity` spellings Python accepts are
not modelled; no input here uses them.) -/
def jsonLoads (s : String) : Option PVal :=
  match pj (4 * s.length + 16) (.jval s.toList) with
  | some (v, rest) => if skipWs rest = [] then some v else Option.none
  | Option.none => Option.none

/-- Embedding of `re.search(r"\x7b.*?\x7d", raw, re.DOTALL)`: the match, when
any exists, starts at the first opening brace and ends at the first
closing brace after it (leftmost start, non-greedy extension). -/
def firstBraceSub (cs : List Char) : Option (List Char) :=
  match cs.dropWhile (fun c => ¬ c = lbrace) with
  | [] => Option.none
  | c :: tl =>
    if tl.any (fun x => x = rbrace) then
      some (c :: (tl.takeWhile (fun x => ¬ x = rbrace)) ++ [rbrace])
    else Option.none

/-- Embedding of the response parsing of `_process_chunk`: direct
`json.loads`, then the regex substring, then the empty dict. -/
def processChunkData (raw : String) : PVal :=
  match jsonLoads raw with
  | some v => v
  | Option.none =>
    match firstBraceSub raw.toList with
    | some sub =>
      (match jsonLoads (String.mk sub) with
       | some v => v
       | Option.none => .dict [])
    | Option.none => .dict []

/-- All brace-delimited substrings, ordered by start position then length,
used to formalize the claim's "first brace-delimited JSON object
substring". -/
def braceSubstrings (cs : List Char) : List (List Char) :=
  (List.range cs.length).flatMap (fun i =>
    (List.range (cs.length - i)).filterMap (fun len =>
      let sub := (cs.drop i).take (len + 1)
      if sub.head? = some lbrace ∧ sub.getLast? = some rbrace then some sub else none))

/-- The parsing described by claim C7: direct parse, else the first
brace-delimited substring that parses as a JSON object, else empty. -/
def claimChunkParse (raw : String) : PVal :=
  match jsonLoads raw with
  | some v => v
  | Option.none =>
    match (braceSubstrings raw.toList).findSome? (fun sub =>
        match jsonLoads (String.mk sub) with
        | some (PVal.dict o) => some (PVal.dict o)
        | _ => Option.none) with
    | some v => v
    | Option.none => .dict []

/-- C7 (counterexample): for the response text `x {"a": {"b": 1}}` (braces
written here as words), direct parsing fails and the claim's first
brace-delimited JSON object substring is the full nested object, so the
claim requires the parsed object to be contributed; but the code's
non-greedy regex stops at the first closing brace, producing the
unparseable truncation `{"a": {"b": 1}`, so the chunk contributes the
empty dict instead. -/
theorem chunk_parse_counterexample :
    processChunkData "x \x7b\"a\": \x7b\"b\": 1\x7d\x7d" ≠
      claimChunkParse "x \x7b\"a\": \x7b\"b\": 1\x7d\x7d" := by
  intro h
  have h1 : processChunkData "x \x7b\"a\": \x7b\"b\": 1\x7d\x7d" = PVal.dict [] := by rfl
  have h2 : claimChunkParse "x \x7b\"a\": \x7b\"b\": 1\x7d\x7d" =
      PVal.dict [("a", PVal.dict [("b", PVal.int 1)])] := by rfl
  rw [h1, h2] at h
  injection h with h3
  exact List.noConfusion h3

/-- The fallback substring as the amended claim describes it: from the
first opening brace to the first closing brace after it, by index. -/
def amendedFirstSub (cs : List Char) : Option (List Char) :=
  let i := cs.findIdx (fun c => c = lbrace)
  if i < cs.length then
    let tl := cs.drop (i + 1)
    let j := tl.findIdx (fun c => c = rbrace)
    if j < tl.length then some ((cs.drop i).take (j + 2)) else none
  else none

/-- The parsing described by the amended claim C7. -/
def amendedChunkParse (raw : String) : PVal :=
  match jsonLoads raw with
  | some v => v
  | Option.none =>
    match amendedFirstSub raw.toList with
    | some sub =>
      (match jsonLoads (String.mk sub) with
       | some v => v
       | Option.none => .dict [])
    | Option.none => .dict []

theorem findIdx_lt_iff_any (p : Char → Bool) :
    ∀ l : List Char, l.findIdx p < l.length ↔ l.any p = true := by
  intro l
  induction l with
  | nil => simp
  | cons x xs ih =>
    by_cases hx : p x
    · simp [List.findIdx_cons, hx, Nat.succ_pos]
    · simp [List.findIdx_cons, hx, Nat.succ_lt_succ_iff, ih]

theorem take_findIdx_eq :
    ∀ l : List Char, l.any (fun x => x = rbrace) = true →
      l.take (l.findIdx (fun x => x = rbrace) + 1) =
        l.takeWhile (fun x => ¬ x = rbrace) ++ [rbrace] := by
  intro l
  induction l with
  | nil => intro h; simp at h
  | cons x xs ih =>
    intro h
    by_cases hx : x = rbrace
    · subst hx
      simp [List.findIdx_cons, List.takeWhile_cons]
    · have hfi : (x :: xs).findIdx (fun x => x = rbrace) =
          xs.findIdx (fun x => x = rbrace) + 1 := by
        simp [List.findIdx_cons, hx]
      have hany : xs.any (fun x => x = rbrace) = true := by
        simpa [hx] using h
      rw [hfi]
      simp [List.take_succ_cons, List.takeWhile_cons, hx, ih hany]

theorem firstBraceSub_eq_amended : ∀ cs : List Char, firstBraceSub cs = amendedFirstSub cs := by
  intro cs
  induction cs with
  | nil => rfl
  | cons c tl ih =>
    by_cases hc : c = lbrace
    · subst hc
      rw [firstBraceSub, amendedFirstSub]
      have hdw : (lbrace :: tl).dropWhile (fun c => ¬ c = lbrace) = lbrace :: tl := by
        simp [List.dropWhile_cons]
      have hfi : (lbrace :: tl).findIdx (fun c => c = lbrace) = 0 := by
        simp [List.findIdx_cons]
      rw [hdw, hfi]
      simp only [Nat.zero_add, List.drop_succ_cons, List.drop_zero, List.length_cons,
        Nat.succ_pos, if_true, List.drop_nil]
      by_cases hany : tl.any (fun x => x = rbrace) = true
      · have hlt : tl.findIdx (fun x => x = rbrace) < tl.length :=
          (findIdx_lt_iff_any _ tl).mpr hany
        rw [if_pos hany, if_pos hlt]
        have : (lbrace :: tl).take (tl.findIdx (fun x => x = rbrace) + 2) =
            lbrace :: tl.take (tl.findIdx (fun x => x = rbrace) + 1) := by
          simp [List.take_succ_cons]
        rw [this, take_findIdx_eq tl hany]
        rfl
      · have hnlt : ¬ tl.findIdx (fun x => x = rbrace) < tl.length := by
          rw [findIdx_lt_iff_any]
          exact hany
        rw [if_neg hany, if_neg hnlt]
    · rw [firstBraceSub, amendedFirstSub]
      have hdw : (c :: tl).dropWhile (fun c => ¬ c = lbrace) =
          tl.dropWhile (fun c => ¬ c = lbrace) := by
        simp [List.dropWhile_cons, hc]
      have hfi : (c :: tl).findIdx (fun c => c = lbrace) =
          tl.findIdx (fun c => c = lbrace) + 1 := by
        simp [List.findIdx_cons, hc]
      rw [hdw, hfi]
      rw [firstBraceSub] at ih
      rw [ih, amendedFirstSub]
      simp only [List.length_cons, Nat.succ_lt_succ_iff, List.drop_succ_cons]

/-- C7 (amended): response parsing first attempts direct JSON parsing; on
failure it takes the substring from the first opening brace to the first
closing brace after it (which recovers flat objects embedded in
surrounding text but truncates objects containing nested objects) and
parses that; if both fail, or there is no such substring, the chunk
contributes an empty map rather than aborting the extraction. -/
theorem chunk_parse_amended : ∀ raw : String, processChunkData raw = amendedChunkParse raw := by
  intro raw
  rw [processChunkData, amendedChunkParse, firstBraceSub_eq_amended]

end Scherrer
